import Mathlib

/-!
Verification of the core rendering engine of a Monte Carlo path tracer
(the `fp` variant: ray-sphere intersection, scene intersector, recursive
radiance estimation, and the parallel sample-accumulation driver), together
with the `oo` variant of the sphere intersection routine.

The geometry toolkit ("math/Vec3.h", "math/Epsilon.h", "math/Samples.h",
"math/Camera.h", "util/ArrayOutput.h") and the scene/material headers are
external collaborators not part of the reviewed sources; those are modelled
from the spec and marked as such.  Real numbers stand for the C++ `double`s.
-/

noncomputable section

/-- Modelled from the spec: a 3-component real-valued vector used
interchangeably as a position, direction and RGB colour (the `Vec3` of the
supplied geometry toolkit). -/
@[ext]
structure Vec3 where
  x : ℝ
  y : ℝ
  z : ℝ

instance : Zero Vec3 := ⟨⟨0, 0, 0⟩⟩

instance : Add Vec3 := ⟨fun a b => ⟨a.x + b.x, a.y + b.y, a.z + b.z⟩⟩

instance : Sub Vec3 := ⟨fun a b => ⟨a.x - b.x, a.y - b.y, a.z - b.z⟩⟩

instance : Neg Vec3 := ⟨fun a => ⟨-a.x, -a.y, -a.z⟩⟩

/-- Element-wise multiplication, used for colour modulation. -/
instance : Mul Vec3 := ⟨fun a b => ⟨a.x * b.x, a.y * b.y, a.z * b.z⟩⟩

/-- Scaling by a real. -/
instance : SMul ℝ Vec3 := ⟨fun k v => ⟨k * v.x, k * v.y, k * v.z⟩⟩

/-- Division of a vector by a scalar, as the toolkit's `operator/`. -/
instance : HDiv Vec3 ℝ Vec3 := ⟨fun v k => ⟨v.x / k, v.y / k, v.z / k⟩⟩

/-- Dot product. -/
def Vec3.dot (a b : Vec3) : ℝ := a.x * b.x + a.y * b.y + a.z * b.z

/-- Cross product. -/
def Vec3.cross (a b : Vec3) : Vec3 :=
  ⟨a.y * b.z - a.z * b.y, a.z * b.x - a.x * b.z, a.x * b.y - a.y * b.x⟩

/-- Squared length. -/
def Vec3.lengthSquared (v : Vec3) : ℝ := v.x * v.x + v.y * v.y + v.z * v.z

/-- Length. -/
def Vec3.length (v : Vec3) : ℝ := Real.sqrt v.lengthSquared

/-- Normalisation: the vector divided by its length. -/
def Vec3.normalised (v : Vec3) : Vec3 := v / v.length

/-- Modelled from the spec: reflection of an incoming direction about a
normal (`n.reflect(v)` of the geometry toolkit). -/
def Vec3.reflect (n v : Vec3) : Vec3 := v - (2 * v.dot n) • n

/-- Modelled from the spec: the physically derived Fresnel reflectance of the
toolkit (`n.reflectance(v, iorFrom, iorTo)`), here in Schlick form; no claim
depends on its exact value. -/
def Vec3.reflectance (n v : Vec3) (iorFrom iorTo : ℝ) : ℝ :=
  let r0 := ((iorFrom - iorTo) / (iorFrom + iorTo)) ^ 2
  let oneMinusCos := 1 + n.dot v
  r0 + (1 - r0) * oneMinusCos ^ 5


/-- Modelled from the spec: a ray is an origin point and a (normalized)
direction vector. -/
structure Ray where
  origin : Vec3
  direction : Vec3

/-- The position at parametric distance `t` along the ray. -/
def Ray.positionAlong (r : Ray) (t : ℝ) : Vec3 := r.origin + t • r.direction

/-- Modelled from the spec ("math/Epsilon.h" is not among the reviewed
sources): the small positive self-intersection threshold. -/
def Epsilon : ℝ := 1 / 1000000000

/-- Modelled from the spec: the result of a successful intersection —
parametric distance, world-space position, oriented unit surface normal; the
`inside` flag marks an interior hit (the geometric normal pointed along the
ray and was flipped). -/
structure Hit where
  distance : ℝ
  position : Vec3
  normal : Vec3
  inside : Bool

/-- Modelled from the spec: surface response — diffuse colour, emission
colour, reflectivity coefficient (negative = sentinel for "derive from
Fresnel"), index of refraction, and reflection cone angle. -/
structure Material where
  diffuse : Vec3
  emission : Vec3
  reflectivity : ℝ
  indexOfRefraction : ℝ
  reflectionConeAngleRadians : ℝ

/-- A sphere: centre and radius. -/
structure Sphere where
  centre : Vec3
  radius : ℝ

/-- A triangle: three vertices. -/
structure Triangle where
  v0 : Vec3
  v1 : Vec3
  v2 : Vec3

/-- Translation of `fp::Sphere::intersect` (src/fp/Sphere.cpp): solve the
quadratic, reject a negative discriminant, reject when both roots are below
`Epsilon`, take the smaller root above `Epsilon` (else the larger), and flip
the outward normal when it points along the ray. -/
def fp.Sphere.intersect (s : Sphere) (ray : Ray) : Option Hit :=
  let op := s.centre - ray.origin
  let radiusSquared := s.radius * s.radius
  let b := op.dot ray.direction
  let determinant := b * b - op.lengthSquared + radiusSquared
  if determinant < 0 then none
  else
    let detRoot := Real.sqrt determinant
    let minusT := b - detRoot
    let plusT := b + detRoot
    if minusT < Epsilon ∧ plusT < Epsilon then none
    else
      let t := if minusT > Epsilon then minusT else plusT
      let hitPosition := ray.positionAlong t
      let normal := (hitPosition - s.centre).normalised
      if normal.dot ray.direction > 0 then
        some ⟨t, hitPosition, -normal, true⟩
      else
        some ⟨t, hitPosition, normal, false⟩

/-- Translation of `oo::Sphere::intersect` (src/oo/Sphere.cpp): the same
algorithm, returning success as a `Bool` and the hit through an out
parameter (modelled in-out: on failure the incoming `hit` is returned
unchanged). -/
def oo.Sphere.intersect (s : Sphere) (ray : Ray) (hit : Hit) : Bool × Hit :=
  let op := s.centre - ray.origin
  let radiusSquared := s.radius * s.radius
  let b := op.dot ray.direction
  let determinant := b * b - op.lengthSquared + radiusSquared
  if determinant < 0 then (false, hit)
  else
    let detRoot := Real.sqrt determinant
    let minusT := b - detRoot
    let plusT := b + detRoot
    if minusT < Epsilon ∧ plusT < Epsilon then (false, hit)
    else
      let t := if minusT > Epsilon then minusT else plusT
      let hitPosition := ray.positionAlong t
      let normal := (hitPosition - s.centre).normalised
      if normal.dot ray.direction > 0 then
        (true, ⟨t, hitPosition, -normal, true⟩)
      else
        (true, ⟨t, hitPosition, normal, false⟩)

/-- Modelled from the spec: the triangle analytic intersection test
(Möller–Trumbore; the Triangle sources are not under review), with the same
epsilon and no-hit conventions and a unit normal oriented against the ray. -/
def Triangle.intersect (tri : Triangle) (ray : Ray) : Option Hit :=
  let e1 := tri.v1 - tri.v0
  let e2 := tri.v2 - tri.v0
  let pvec := ray.direction.cross e2
  let det := e1.dot pvec
  if det = 0 then none
  else
    let invDet := 1 / det
    let tvec := ray.origin - tri.v0
    let u := tvec.dot pvec * invDet
    if u < 0 ∨ u > 1 then none
    else
      let qvec := tvec.cross e1
      let v := ray.direction.dot qvec * invDet
      if v < 0 ∨ u + v > 1 then none
      else
        let t := e2.dot qvec * invDet
        if t < Epsilon then none
        else
          let pos := ray.positionAlong t
          let normal := (e1.cross e2).normalised
          if normal.dot ray.direction > 0 then
            some ⟨t, pos, -normal, true⟩
          else
            some ⟨t, pos, normal, false⟩

/-- The closed variant type over primitives (the `SpherePrimitive` /
`TrianglePrimitive` alternatives of src/fp/Primitive usage in Render.cpp),
each carrying its geometry and its material. -/
inductive Primitive where
  | sphere (sphere : Sphere) (material : Material)
  | triangle (triangle : Triangle) (material : Material)

/-- Modelled from the spec: a scene is a collection of primitives plus one
environment colour. -/
structure Scene where
  primitives : List Primitive
  environment : Vec3

/-- `fp::IntersectionRecord` (src/fp/Render.cpp): a hit together with the
material of the primitive that produced it. -/
structure IntersectionRecord where
  hit : Hit
  material : Material

/-- `fp::intersect(primitive, ray)` (src/fp/Render.cpp, `IntersectVisitor`):
dispatch on the primitive variant and pair the hit with the primitive's
material. -/
def fp.intersectPrim (p : Primitive) (ray : Ray) : Option IntersectionRecord :=
  match p with
  | .sphere s m => (fp.Sphere.intersect s ray).map fun h => ⟨h, m⟩
  | .triangle t m => (Triangle.intersect t ray).map fun h => ⟨h, m⟩

/-- The body of the scan loop of `fp::intersect(scene, ray)`
(src/fp/Render.cpp lines 52-57): the running nearest candidate is replaced
exactly when the primitive intersects and either there is no candidate yet
or the new hit is strictly nearer. -/
def fp.considerPrim (ray : Ray) (nearest : Option IntersectionRecord)
    (p : Primitive) : Option IntersectionRecord :=
  match fp.intersectPrim p ray with
  | none => nearest
  | some r =>
    match nearest with
    | none => some r
    | some n => if r.hit.distance < n.hit.distance then some r else some n

/-- `fp::intersect(scene, ray)` (src/fp/Render.cpp lines 49-59): linear scan
over all primitives tracking the nearest candidate. -/
def fp.intersect (scene : Scene) (ray : Ray) : Option IntersectionRecord :=
  scene.primitives.foldl (fp.considerPrim ray) none

/-- Modelled from the spec: the deterministic per-worker random generator
(`std::mt19937` with `std::uniform_real_distribution<>(0,1)` draws), as a
stream of unit-interval draws. -/
abbrev Rng := ℕ → ℝ

/-- One draw from the unit distribution together with the advanced state. -/
def Rng.nextUnit (r : Rng) : ℝ × Rng := (r 0, fun n => r (n + 1))

/-- The recognized render configuration fields (`RenderParams`). -/
structure RenderParams where
  width : ℕ
  height : ℕ
  samplesPerPixel : ℕ
  maxDepth : ℕ
  firstBounceUSamples : ℕ
  firstBounceVSamples : ℕ
  preview : Bool
  maxCpus : ℕ
  seed : ℕ

/-- Modelled from the spec: three mutually orthogonal unit vectors built from
a single normal vector (`math/OrthoNormalBasis.h` is not among the reviewed
sources); no claim depends on the exact construction. -/
structure OrthoNormalBasis where
  xAxis : Vec3
  yAxis : Vec3
  zAxis : Vec3

/-- Mapping a local-space vector into world space through the basis. -/
def OrthoNormalBasis.transform (b : OrthoNormalBasis) (v : Vec3) : Vec3 :=
  v.x • b.xAxis + v.y • b.yAxis + v.z • b.zAxis

/-- Modelled from the spec: `OrthoNormalBasis::fromZ` — a basis whose z axis
is the given normal. -/
def OrthoNormalBasis.fromZ (z : Vec3) : OrthoNormalBasis :=
  let candidate : Vec3 := if |z.x| > 0.9 then ⟨0, 1, 0⟩ else ⟨1, 0, 0⟩
  let y := (z.cross candidate).normalised
  let x := y.cross z
  ⟨x, y, z⟩

/-- Modelled from the spec ("math/Samples.h" is not among the reviewed
sources): a sample within the cone of the given half-angle around a
direction; a zero angle returns the mirror direction exactly. No claim
depends on the exact distribution. -/
def coneSample (direction : Vec3) (coneAngleRadians u v : ℝ) : Vec3 :=
  if coneAngleRadians = 0 then direction
  else
    let basis := OrthoNormalBasis.fromZ direction
    let phi := 2 * Real.pi * u
    let cosT := 1 - v * (1 - Real.cos coneAngleRadians)
    let sinT := Real.sqrt (1 - cosT * cosT)
    basis.transform ⟨Real.cos phi * sinT, Real.sin phi * sinT, cosT⟩

/-- Modelled from the spec ("math/Samples.h" is not among the reviewed
sources): a hemisphere direction above the basis's z axis from a unit-square
sample. No claim depends on the exact distribution. -/
def hemisphereSample (basis : OrthoNormalBasis) (u v : ℝ) : Vec3 :=
  let phi := 2 * Real.pi * u
  let r := Real.sqrt v
  basis.transform ⟨r * Real.cos phi, r * Real.sin phi, Real.sqrt (1 - v)⟩

/-- Modelled from the spec: the camera is an external collaborator exposing
per-pixel ray generation (`camera.randomRay(x, y, rng)`), which may draw from
the generator. -/
structure Camera where
  randomRay : ℕ → ℕ → Rng → Ray × Rng

mutual

/-- Translation of `fp::singleRay` (src/fp/Render.cpp lines 64-90): draw
`p`, compute the effective reflectivity (Fresnel when the stored coefficient
is the negative sentinel), then either a specular cone-perturbed bounce
returned unmodified, or a diffuse hemisphere bounce attenuated by the diffuse
colour. -/
def fp.singleRay (scene : Scene) (rng : Rng) (rec : IntersectionRecord)
    (ray : Ray) (basis : OrthoNormalBasis) (u v : ℝ) (depth : ℕ)
    (params : RenderParams) : Vec3 × Rng :=
  let p := (Rng.nextUnit rng).1
  let rng1 := (Rng.nextUnit rng).2
  let mat := rec.material
  let hit := rec.hit
  let iorFrom := if hit.inside then mat.indexOfRefraction else 1
  let iorTo := if hit.inside then 1 else mat.indexOfRefraction
  let reflectivity :=
    if mat.reflectivity < 0 then Vec3.reflectance hit.normal ray.direction iorFrom iorTo
    else mat.reflectivity
  if p < reflectivity then
    fp.radiance scene rng1
      ⟨hit.position,
        coneSample (Vec3.reflect hit.normal ray.direction)
          mat.reflectionConeAngleRadians u v⟩
      depth params
  else
    let rr := fp.radiance scene rng1 ⟨hit.position, hemisphereSample basis u v⟩ depth params
    (mat.diffuse * rr.1, rr.2)
termination_by (params.maxDepth - depth, 1, 0)
decreasing_by
  all_goals exact Prod.Lex.right _ (Prod.Lex.left _ _ (by omega))

/-- The stratified first-bounce accumulation loop of `fp::radiance`
(src/fp/Render.cpp lines 113-127): for each grid cell, jitter the cell's
sample with two fresh draws, evaluate `singleRay`, and accumulate. -/
def fp.sampleLoop (scene : Scene) (rec : IntersectionRecord) (ray : Ray)
    (basis : OrthoNormalBasis) (numU numV depth : ℕ) (params : RenderParams) :
    Rng → Vec3 → List (ℕ × ℕ) → Vec3 × Rng
  | rng, acc, [] => (acc, rng)
  | rng, acc, (v, u) :: rest =>
    let du := (Rng.nextUnit rng).1
    let rngA := (Rng.nextUnit rng).2
    let dv := (Rng.nextUnit rngA).1
    let rngB := (Rng.nextUnit rngA).2
    let sampleU := ((u : ℝ) + du) / (numU : ℝ)
    let sampleV := ((v : ℝ) + dv) / (numV : ℝ)
    let cr := fp.singleRay scene rngB rec ray basis sampleU sampleV depth params
    fp.sampleLoop scene rec ray basis numU numV depth params cr.2 (acc + cr.1) rest
termination_by rng acc pairs => (params.maxDepth - depth, 2, pairs.length)
decreasing_by
  · exact Prod.Lex.right _ (Prod.Lex.left _ _ (by omega))
  · exact Prod.Lex.right _ (Prod.Lex.right _ (by simp))

/-- Translation of `fp::radiance` (src/fp/Render.cpp lines 92-129): depth
cutoff to black, environment colour on a miss, raw diffuse colour in preview
mode, otherwise emission plus the average of the stratified first-bounce
sub-samples (a `U×V` grid at depth 0, a single cell deeper). -/
def fp.radiance (scene : Scene) (rng : Rng) (ray : Ray) (depth : ℕ)
    (params : RenderParams) : Vec3 × Rng :=
  let numUSamples := if depth = 0 then params.firstBounceUSamples else 1
  let numVSamples := if depth = 0 then params.firstBounceVSamples else 1
  if h : params.maxDepth ≤ depth then (0, rng)
  else
    match fp.intersect scene ray with
    | none => (scene.environment, rng)
    | some rec =>
      if params.preview then (rec.material.diffuse, rng)
      else
        let basis := OrthoNormalBasis.fromZ rec.hit.normal
        let pairs :=
          (List.range numVSamples).flatMap fun v =>
            (List.range numUSamples).map fun u => (v, u)
        let il := fp.sampleLoop scene rec ray basis numUSamples numVSamples
          (depth + 1) params rng 0 pairs
        (rec.material.emission + il.1 / ((numUSamples * numVSamples : ℕ) : ℝ), il.2)
termination_by (params.maxDepth - depth, 0, 0)
decreasing_by
  · exact Prod.Lex.left _ _ (by omega)

end

/-- Modelled from the spec: a width x height pixel buffer of unnormalized
summed radiance ("util/ArrayOutput.h" is not among the reviewed sources),
here with functional pixel storage. -/
structure ArrayOutput where
  width : ℕ
  height : ℕ
  pixelAt : ℕ → ℕ → Vec3

/-- A freshly constructed (zeroed) buffer. -/
def ArrayOutput.zeroed (w h : ℕ) : ArrayOutput := ⟨w, h, fun _ _ => 0⟩

/-- `operator+=`: element-wise merge of two buffers. -/
def ArrayOutput.add (a b : ArrayOutput) : ArrayOutput :=
  ⟨a.width, a.height, fun x y => a.pixelAt x y + b.pixelAt x y⟩

/-- Translation of `fp::renderWholeScreen` (src/fp/Render.cpp lines
131-146): for each pixel, seed a fresh generator with
`height*width*seed + x*width + y`, generate the camera ray, and evaluate
the radiance estimator at depth 0.  `mkRng` is the (external,
deterministic) `std::mt19937` seed-to-state constructor. -/
def fp.renderWholeScreen (camera : Camera) (scene : Scene) (seed : ℕ)
    (params : RenderParams) (mkRng : ℕ → Rng) : ArrayOutput :=
  ⟨params.width, params.height, fun x y =>
    let rng := mkRng (params.height * params.width * seed + x * params.width + y)
    let rayRng := camera.randomRay x y rng
    (fp.radiance scene rayRng.2 rayRng.1 0 params).1⟩

/-- The seed a launched worker obtains from the shared `seed++` counter
(src/fp/Render.cpp line 165): the batch's base seed plus the worker's
position in the scheduler-dependent order in which the concurrently running
tasks execute the increment.  `grabOrder i` is the position at which the
task of future index `i` runs `seed++`. -/
def fp.grabSeed (seedBase : ℕ) (grabOrder : ℕ → ℕ) (i : ℕ) : ℕ :=
  seedBase + grabOrder i

/-- The merge loop over a batch's completed futures (src/fp/Render.cpp lines
168-174): in future order, `output += future.get()`, then the progress update
and the checkpoint callback observe the accumulator; the list of buffers
passed to the callback is returned as the callback trace. -/
def fp.mergeLoop : ArrayOutput → List ArrayOutput → List ArrayOutput →
    ArrayOutput × List ArrayOutput
  | acc, snaps, [] => (acc, snaps)
  | acc, snaps, b :: rest => fp.mergeLoop (acc.add b) (snaps ++ [acc.add b]) rest

/-- The result of the parallel sample scheduler: the accumulator, the trace
of buffers passed to the checkpoint callback (one entry per completed
sample), and the sizes of the dispatched batches. -/
structure RenderResult where
  output : ArrayOutput
  snapshots : List ArrayOutput
  batchSizes : List ℕ

/-- The batched sample loop of `fp::render` (src/fp/Render.cpp lines
158-175): while samples remain, launch `min(samplesPerPixel, sample +
maxCpus) - sample` concurrent frame renders — each grabbing a seed from the
shared counter in schedule order — then merge them in future order.  `fuel`
bounds the iterations so that the non-terminating `maxCpus = 0` loop is
`none`; `schedule b` is the seed-grab order of batch `b`. -/
def fp.renderLoop (camera : Camera) (scene : Scene) (params : RenderParams)
    (mkRng : ℕ → Rng) (schedule : ℕ → ℕ → ℕ) :
    ℕ → ℕ → ℕ → ArrayOutput → List ArrayOutput → List ℕ → Option RenderResult
  | 0, _, _, _, _, _ => none
  | fuel + 1, sample, seed, acc, snaps, sizes =>
    if params.samplesPerPixel ≤ sample then some ⟨acc, snaps, sizes⟩
    else
      let k := min params.samplesPerPixel (sample + params.maxCpus) - sample
      let buffers := (List.range k).map fun i =>
        fp.renderWholeScreen camera scene (fp.grabSeed seed (schedule sizes.length) i)
          params mkRng
      let merged := fp.mergeLoop acc snaps buffers
      fp.renderLoop camera scene params mkRng schedule
        fuel (sample + params.maxCpus) (seed + k)
        merged.1 merged.2 (sizes ++ [k])

/-- Translation of `fp::render` (src/fp/Render.cpp lines 148-177): run the
batched sample loop from sample 0 with the configured seed and a zeroed
accumulator.  The fuel `samplesPerPixel + 1` covers every terminating run
(at least one sample is consumed per batch whenever `maxCpus >= 1`). -/
def fp.render (camera : Camera) (scene : Scene) (params : RenderParams)
    (mkRng : ℕ → Rng) (schedule : ℕ → ℕ → ℕ) : Option RenderResult :=
  fp.renderLoop camera scene params mkRng schedule (params.samplesPerPixel + 1)
    0 params.seed (ArrayOutput.zeroed params.width params.height) [] []

/-- The half-b coefficient `(centre - origin) . direction` of the sphere
quadratic (the local `b` of `Sphere::intersect`). -/
def sphereHalfB (s : Sphere) (ray : Ray) : ℝ :=
  (s.centre - ray.origin).dot ray.direction

/-- The discriminant of the sphere quadratic (the local `determinant` of
`Sphere::intersect` before the square root is taken). -/
def sphereDet (s : Sphere) (ray : Ray) : ℝ :=
  sphereHalfB s ray * sphereHalfB s ray
    - (s.centre - ray.origin).lengthSquared + s.radius * s.radius

/-- The smaller root `minusT` of the sphere quadratic. -/
def sphereMinusT (s : Sphere) (ray : Ray) : ℝ :=
  sphereHalfB s ray - Real.sqrt (sphereDet s ray)

/-- The larger root `plusT` of the sphere quadratic. -/
def spherePlusT (s : Sphere) (ray : Ray) : ℝ :=
  sphereHalfB s ray + Real.sqrt (sphereDet s ray)

/-- A concrete material: red diffuse, emission (2,3,4), zero reflectivity. -/
def cMat : Material := ⟨⟨1, 0, 0⟩, ⟨2, 3, 4⟩, 0, 1, 0⟩

/-- A second concrete material, distinguished by its diffuse colour. -/
def cMatB : Material := ⟨⟨0, 1, 0⟩, ⟨0, 0, 0⟩, 0, 1, 0⟩

/-- A concrete sphere: centre (0,0,-5), radius 1. -/
def cSphere : Sphere := ⟨⟨0, 0, -5⟩, 1⟩

/-- A concrete ray from the origin looking down -z. -/
def cRay : Ray := ⟨⟨0, 0, 0⟩, ⟨0, 0, -1⟩⟩

/-- The hit `cRay` produces on `cSphere`: the front face at distance 4. -/
def cHit : Hit := ⟨4, ⟨0, 0, -4⟩, ⟨0, 0, 1⟩, false⟩

/-- The intersection record for `cRay` against the one-sphere scene. -/
def cRec : IntersectionRecord := ⟨cHit, cMat⟩

/-- A scene holding the one concrete sphere, black environment. -/
def cScene1 : Scene := ⟨[Primitive.sphere cSphere cMat], ⟨0, 0, 0⟩⟩

/-- A scene with two coincident spheres carrying different materials (both
hit at the same distance), black environment. -/
def cScene2 : Scene :=
  ⟨[Primitive.sphere cSphere cMat, Primitive.sphere cSphere cMatB], ⟨0, 0, 0⟩⟩

/-- A scene with no primitives and a non-black environment colour. -/
def cSceneEmpty : Scene := ⟨[], ⟨1, 1, 1⟩⟩

/-- A concrete generator stream (all draws are 0). -/
def cRng : Rng := fun _ => 0

/-- Concrete parameters: one sample, depth limit 1, 1x1 stratification,
path-tracing (non-preview) mode. -/
def cParams : RenderParams := ⟨1, 1, 1, 1, 1, 1, false, 1, 0⟩

/-- Concrete parameters with depth limit 0 and preview mode on. -/
def cParamsPre0 : RenderParams := ⟨1, 1, 1, 0, 1, 1, true, 1, 0⟩

/-- Concrete parameters with depth limit 1 and preview mode on. -/
def cParamsPreview : RenderParams := ⟨1, 1, 1, 1, 1, 1, true, 1, 0⟩

/-- Concrete parameters for the scheduler: 3 samples, 2 workers. -/
def cParamsSched : RenderParams := ⟨1, 1, 3, 1, 1, 1, false, 2, 0⟩

/-- A concrete camera whose rays ignore the pixel and generator. -/
def cCamera : Camera := ⟨fun _ _ rng => (cRay, rng)⟩

/-- A concrete deterministic seed-to-stream constructor. -/
def cMkRng : ℕ → Rng := fun _ => cRng

/-- The seed-grab order in which worker 0 increments the shared counter
first. -/
def cSchedA : ℕ → ℕ → ℕ := fun _ i => i

/-- The seed-grab order in which, in every batch of two, the second worker
increments the shared counter first. -/
def cSchedB : ℕ → ℕ → ℕ := fun _ i => 1 - i

/-- A sphere whose surface grazes the ray at parametric distance exactly
`Epsilon`: centre (1,0,Epsilon), radius 1, for a ray from the origin along
+z (tangent case, both quadratic roots equal `Epsilon`). -/
def cSphereTangent : Sphere := ⟨⟨1, 0, Epsilon⟩, 1⟩

/-- A ray from the origin along +z. -/
def cRayZ : Ray := ⟨⟨0, 0, 0⟩, ⟨0, 0, 1⟩⟩

/-- The hit `cRayZ` produces on `cSphereTangent`: distance exactly
`Epsilon`. -/
def cHitTangent : Hit := ⟨Epsilon, ⟨0, 0, Epsilon⟩, ⟨-1, 0, 0⟩, false⟩

/-- A sphere strictly containing the origin of `cRayZ` whose far-side exit
point lies below the `Epsilon` threshold: centre (0,0,-1+Epsilon/2),
radius 1. -/
def cSphereInside : Sphere := ⟨⟨0, 0, -1 + Epsilon / 2⟩, 1⟩

/-- The unit sphere about the origin (the origin of `cRayZ` lies strictly
inside it). -/
def cSphereOrigin : Sphere := ⟨⟨0, 0, 0⟩, 1⟩

/-- The far-side exit hit of `cRayZ` through `cSphereOrigin`: distance 1,
normal flipped to point back toward the ray origin. -/
def cHitInsideExit : Hit := ⟨1, ⟨0, 0, 1⟩, ⟨0, 0, -1⟩, true⟩

@[simp] lemma Vec3.zero_def : (0 : Vec3) = ⟨0, 0, 0⟩ := rfl

@[simp] lemma Vec3.add_def (a b c d e f : ℝ) :
    (⟨a, b, c⟩ + ⟨d, e, f⟩ : Vec3) = ⟨a + d, b + e, c + f⟩ := rfl

@[simp] lemma Vec3.sub_def (a b c d e f : ℝ) :
    (⟨a, b, c⟩ - ⟨d, e, f⟩ : Vec3) = ⟨a - d, b - e, c - f⟩ := rfl

@[simp] lemma Vec3.neg_def (a b c : ℝ) : (-(⟨a, b, c⟩ : Vec3)) = ⟨-a, -b, -c⟩ := rfl

@[simp] lemma Vec3.mul_def (a b c d e f : ℝ) :
    (⟨a, b, c⟩ * ⟨d, e, f⟩ : Vec3) = ⟨a * d, b * e, c * f⟩ := rfl

@[simp] lemma Vec3.smul_def (k a b c : ℝ) :
    (k • (⟨a, b, c⟩ : Vec3)) = ⟨k * a, k * b, k * c⟩ := rfl

@[simp] lemma Vec3.div_def (a b c k : ℝ) :
    ((⟨a, b, c⟩ : Vec3) / k) = (⟨a / k, b / k, c / k⟩ : Vec3) := rfl

@[simp] lemma Vec3.dot_def (a b c d e f : ℝ) :
    Vec3.dot ⟨a, b, c⟩ ⟨d, e, f⟩ = a * d + b * e + c * f := rfl

@[simp] lemma Vec3.lengthSquared_def (a b c : ℝ) :
    Vec3.lengthSquared ⟨a, b, c⟩ = a * a + b * b + c * c := rfl

lemma Vec3.add_comps (a b : Vec3) : a + b = ⟨a.x + b.x, a.y + b.y, a.z + b.z⟩ := rfl

lemma Vec3.sub_comps (a b : Vec3) : a - b = ⟨a.x - b.x, a.y - b.y, a.z - b.z⟩ := rfl

lemma Vec3.mul_comps (a b : Vec3) : a * b = ⟨a.x * b.x, a.y * b.y, a.z * b.z⟩ := rfl

lemma Vec3.smul_comps (k : ℝ) (v : Vec3) : k • v = ⟨k * v.x, k * v.y, k * v.z⟩ := rfl

lemma Vec3.div_comps (v : Vec3) (k : ℝ) : v / k = ⟨v.x / k, v.y / k, v.z / k⟩ := rfl

@[simp] lemma Vec3.mul_zero_vec (v : Vec3) : v * 0 = 0 := by
  cases v; simp

@[simp] lemma Vec3.add_zero_vec (v : Vec3) : v + 0 = v := by
  cases v; simp

@[simp] lemma Vec3.zero_add_vec (v : Vec3) : 0 + v = v := by
  cases v; simp

@[simp] lemma Vec3.zero_div_vec (k : ℝ) : (0 : Vec3) / k = 0 := by
  simp

lemma cSphere_intersect_eval : fp.Sphere.intersect cSphere cRay = some cHit := by
  unfold fp.Sphere.intersect cSphere cRay cHit
  norm_num [Vec3.dot, Vec3.lengthSquared, Vec3.sub_comps, Ray.positionAlong,
    Vec3.smul_comps, Vec3.add_comps, Vec3.normalised, Vec3.length,
    Vec3.div_comps, Epsilon, Real.sqrt_one]

lemma cPrim_intersect_eval (m : Material) :
    fp.intersectPrim (Primitive.sphere cSphere m) cRay = some ⟨cHit, m⟩ := by
  simp [fp.intersectPrim, cSphere_intersect_eval]

lemma cScene1_intersect_eval : fp.intersect cScene1 cRay = some cRec := by
  simp [fp.intersect, cScene1, fp.considerPrim, cPrim_intersect_eval, cRec]

lemma cSphereTangent_intersect_eval :
    fp.Sphere.intersect cSphereTangent cRayZ = some cHitTangent := by
  unfold fp.Sphere.intersect cSphereTangent cRayZ cHitTangent
  norm_num [Vec3.dot, Vec3.lengthSquared, Vec3.sub_comps, Ray.positionAlong,
    Vec3.smul_comps, Vec3.add_comps, Vec3.normalised, Vec3.length,
    Vec3.div_comps, Epsilon, Real.sqrt_zero, Real.sqrt_one]

lemma cSphereInside_intersect_eval :
    fp.Sphere.intersect cSphereInside cRayZ = none := by
  unfold fp.Sphere.intersect cSphereInside cRayZ
  norm_num [Vec3.dot, Vec3.lengthSquared, Vec3.sub_comps, Epsilon, Real.sqrt_one]

lemma cSphereOrigin_intersect_eval :
    fp.Sphere.intersect cSphereOrigin cRayZ = some cHitInsideExit := by
  unfold fp.Sphere.intersect cSphereOrigin cRayZ cHitInsideExit
  norm_num [Vec3.dot, Vec3.lengthSquared, Vec3.sub_comps, Ray.positionAlong,
    Vec3.smul_comps, Vec3.add_comps, Vec3.normalised, Vec3.length,
    Vec3.div_comps, Epsilon, Real.sqrt_one]

lemma Vec3.neg_dot (a b : Vec3) : (-a).dot b = -(a.dot b) := by
  cases a; cases b; simp [Vec3.dot]; ring

lemma Vec3.div_dot (a : Vec3) (k : ℝ) (b : Vec3) : (a / k).dot b = a.dot b / k := by
  cases a; cases b; simp [Vec3.dot]; ring

lemma Vec3.neg_lengthSquared (a : Vec3) : (-a).lengthSquared = a.lengthSquared := by
  cases a; simp

lemma Vec3.div_lengthSquared (a : Vec3) (k : ℝ) :
    (a / k).lengthSquared = a.lengthSquared / (k * k) := by
  cases a; simp; ring

lemma epsilon_pos : (0 : ℝ) < Epsilon := by norm_num [Epsilon]

lemma fp.Sphere.intersect_eq (s : Sphere) (ray : Ray) :
    fp.Sphere.intersect s ray =
      if sphereDet s ray < 0 then none
      else if sphereMinusT s ray < Epsilon ∧ spherePlusT s ray < Epsilon then none
      else
        let t := if sphereMinusT s ray > Epsilon then sphereMinusT s ray
                 else spherePlusT s ray
        let hitPosition := ray.positionAlong t
        let normal := (hitPosition - s.centre).normalised
        if normal.dot ray.direction > 0 then some ⟨t, hitPosition, -normal, true⟩
        else some ⟨t, hitPosition, normal, false⟩ := rfl

lemma sphere_some_facts {s : Sphere} {ray : Ray} {h : Hit}
    (hI : fp.Sphere.intersect s ray = some h) :
    0 ≤ sphereDet s ray ∧ Epsilon ≤ h.distance ∧
    (h.distance = sphereMinusT s ray ∨ h.distance = spherePlusT s ray) ∧
    h.position = ray.positionAlong h.distance ∧
    (h.normal = (h.position - s.centre).normalised ∨
      h.normal = -((h.position - s.centre).normalised)) ∧
    h.normal.dot ray.direction ≤ 0 := by
  rw [fp.Sphere.intersect_eq] at hI
  dsimp only at hI
  have hsq := Real.sqrt_nonneg (sphereDet s ray)
  split_ifs at hI with hdet hboth ht hflip hflip2
  all_goals try exact Option.noConfusion hI
  all_goals injection hI with hX
  all_goals subst hX
  all_goals dsimp only
  all_goals refine ⟨not_lt.mp hdet, ?_, ?_, rfl, ?_, ?_⟩
  all_goals push_neg at hboth
  all_goals first
    | exact le_of_lt ht
    | exact Or.inl rfl
    | exact Or.inr rfl
    | exact not_lt.mp hflip
    | exact not_lt.mp hflip2
    | (rw [Vec3.neg_dot]
       first
         | linarith [hflip]
         | linarith [hflip2])
    | (rcases lt_or_le (sphereMinusT s ray) Epsilon with hc | hc
       · exact hboth hc
       · unfold sphereMinusT at hc
         unfold spherePlusT
         linarith)

lemma positionAlong_sub_lengthSquared (s : Sphere) (ray : Ray) (t : ℝ) :
    (ray.positionAlong t - s.centre).lengthSquared =
      t * t * ray.direction.lengthSquared - 2 * t * sphereHalfB s ray
        + (s.centre - ray.origin).lengthSquared := by
  obtain ⟨⟨cx, cy, cz⟩, r⟩ := s
  obtain ⟨⟨ox, oy, oz⟩, ⟨dx, dy, dz⟩⟩ := ray
  simp [Ray.positionAlong, sphereHalfB, Vec3.dot, Vec3.lengthSquared,
    Vec3.sub_comps, Vec3.add_comps, Vec3.smul_comps]
  ring

lemma positionAlong_sub_dot (s : Sphere) (ray : Ray) (t : ℝ) :
    (ray.positionAlong t - s.centre).dot ray.direction =
      t * ray.direction.lengthSquared - sphereHalfB s ray := by
  obtain ⟨⟨cx, cy, cz⟩, r⟩ := s
  obtain ⟨⟨ox, oy, oz⟩, ⟨dx, dy, dz⟩⟩ := ray
  simp [Ray.positionAlong, sphereHalfB, Vec3.dot, Vec3.lengthSquared,
    Vec3.sub_comps, Vec3.add_comps, Vec3.smul_comps]
  ring

lemma sphere_root_lengthSquared {s : Sphere} {ray : Ray} {t : ℝ}
    (hd : ray.direction.lengthSquared = 1) (hdet : 0 ≤ sphereDet s ray)
    (ht : t = sphereMinusT s ray ∨ t = spherePlusT s ray) :
    (ray.positionAlong t - s.centre).lengthSquared = s.radius * s.radius := by
  have hsq : Real.sqrt (sphereDet s ray) * Real.sqrt (sphereDet s ray)
      = sphereDet s ray := Real.mul_self_sqrt hdet
  rw [positionAlong_sub_lengthSquared, hd]
  have hdef : sphereDet s ray = sphereHalfB s ray * sphereHalfB s ray
      - (s.centre - ray.origin).lengthSquared + s.radius * s.radius := rfl
  rcases ht with rfl | rfl <;>
    simp only [sphereMinusT, spherePlusT] <;>
    linear_combination hsq + hdef

lemma normalised_length_sq_one {w : Vec3} {r : ℝ} (hr : 0 < r)
    (hw : w.lengthSquared = r * r) : w.normalised.lengthSquared = 1 := by
  have hlen : w.length = r := by
    rw [Vec3.length, hw, Real.sqrt_mul_self hr.le]
  rw [Vec3.normalised, hlen, Vec3.div_lengthSquared, hw]
  field_simp

lemma length_one_of_lengthSquared_one {w : Vec3} (hw : w.lengthSquared = 1) :
    w.length = 1 := by
  rw [Vec3.length, hw, Real.sqrt_one]

lemma considerPrim_of_none {ray : Ray} {p : Primitive}
    (hp : fp.intersectPrim p ray = none) (acc : Option IntersectionRecord) :
    fp.considerPrim ray acc p = acc := by
  unfold fp.considerPrim
  rw [hp]

lemma considerPrim_of_some_none {ray : Ray} {p : Primitive} {r : IntersectionRecord}
    (hp : fp.intersectPrim p ray = some r) :
    fp.considerPrim ray none p = some r := by
  unfold fp.considerPrim
  rw [hp]

lemma considerPrim_of_some_some {ray : Ray} {p : Primitive} {r : IntersectionRecord}
    (hp : fp.intersectPrim p ray = some r) (n : IntersectionRecord) :
    fp.considerPrim ray (some n) p =
      if r.hit.distance < n.hit.distance then some r else some n := by
  unfold fp.considerPrim
  rw [hp]

lemma considerPrim_none_iff (ray : Ray) (acc : Option IntersectionRecord)
    (p : Primitive) :
    fp.considerPrim ray acc p = none ↔
      acc = none ∧ fp.intersectPrim p ray = none := by
  cases hp : fp.intersectPrim p ray with
  | none => rw [considerPrim_of_none hp]; simp [hp]
  | some r =>
    cases acc with
    | none => rw [considerPrim_of_some_none hp]; simp [hp]
    | some n => rw [considerPrim_of_some_some hp n]; split_ifs <;> simp [hp]

lemma foldl_consider_none (ray : Ray) :
    ∀ (l : List Primitive) (acc : Option IntersectionRecord),
    l.foldl (fp.considerPrim ray) acc = none ↔
      acc = none ∧ ∀ p ∈ l, fp.intersectPrim p ray = none := by
  intro l
  induction l with
  | nil => intro acc; simp
  | cons p rest ih =>
    intro acc
    rw [List.foldl_cons, ih, considerPrim_none_iff]
    constructor
    · rintro ⟨⟨h1, h2⟩, h3⟩
      refine ⟨h1, ?_⟩
      intro q hq
      rcases List.mem_cons.mp hq with rfl | hq2
      · exact h2
      · exact h3 q hq2
    · rintro ⟨h1, h2⟩
      exact ⟨⟨h1, h2 p (List.mem_cons_self p rest)⟩,
        fun q hq => h2 q (List.mem_cons_of_mem _ hq)⟩

lemma foldl_consider_some (ray : Ray) :
    ∀ (l : List Primitive) (acc : Option IntersectionRecord)
      (r : IntersectionRecord),
    l.foldl (fp.considerPrim ray) acc = some r →
    (acc = some r ∧ ∀ p ∈ l, ∀ r', fp.intersectPrim p ray = some r' →
        r.hit.distance ≤ r'.hit.distance)
    ∨ (∃ l₁ p l₂, l = l₁ ++ p :: l₂ ∧ fp.intersectPrim p ray = some r
        ∧ (∀ r₀, acc = some r₀ → r.hit.distance < r₀.hit.distance)
        ∧ (∀ q ∈ l₁, ∀ r', fp.intersectPrim q ray = some r' →
            r.hit.distance < r'.hit.distance)
        ∧ (∀ q ∈ l₂, ∀ r', fp.intersectPrim q ray = some r' →
            r.hit.distance ≤ r'.hit.distance)) := by
  intro l
  induction l with
  | nil =>
    intro acc r h
    simp only [List.foldl_nil] at h
    exact Or.inl ⟨h, by simp⟩
  | cons p rest ih =>
    intro acc r h
    rw [List.foldl_cons] at h
    rcases ih _ r h with ⟨hacc, hrest⟩ | ⟨l₁, q, l₂, heq, hq, haccs, hl₁, hl₂⟩
    · cases hp : fp.intersectPrim p ray with
      | none =>
        rw [considerPrim_of_none hp] at hacc
        refine Or.inl ⟨hacc, ?_⟩
        intro q hq r' hr'
        rcases List.mem_cons.mp hq with rfl | hq2
        · rw [hp] at hr'; exact Option.noConfusion hr'
        · exact hrest q hq2 r' hr'
      | some rp =>
        cases acc with
        | none =>
          rw [considerPrim_of_some_none hp] at hacc
          injection hacc with hacc
          subst hacc
          exact Or.inr ⟨[], p, rest, rfl, hp,
            fun r₀ h₀ => Option.noConfusion h₀, by simp, hrest⟩
        | some n =>
          rw [considerPrim_of_some_some hp n] at hacc
          by_cases hlt : rp.hit.distance < n.hit.distance
          · rw [if_pos hlt] at hacc
            injection hacc with hacc
            subst hacc
            refine Or.inr ⟨[], p, rest, rfl, hp, ?_, by simp, hrest⟩
            intro r₀ h₀
            injection h₀ with h₀
            subst h₀
            exact hlt
          · rw [if_neg hlt] at hacc
            injection hacc with hacc
            subst hacc
            refine Or.inl ⟨rfl, ?_⟩
            intro q hq r' hr'
            rcases List.mem_cons.mp hq with rfl | hq2
            · rw [hp] at hr'
              injection hr' with hr'
              subst hr'
              exact not_lt.mp hlt
            · exact hrest q hq2 r' hr'
    · have hkey : (∀ r₀, acc = some r₀ → r.hit.distance < r₀.hit.distance) ∧
          (∀ r', fp.intersectPrim p ray = some r' →
            r.hit.distance < r'.hit.distance) := by
        cases hp : fp.intersectPrim p ray with
        | none =>
          rw [considerPrim_of_none hp] at haccs
          refine ⟨haccs, ?_⟩
          intro r' hr'
          exact Option.noConfusion hr'
        | some rp =>
          cases acc with
          | none =>
            rw [considerPrim_of_some_none hp] at haccs
            refine ⟨fun r₀ h₀ => Option.noConfusion h₀, ?_⟩
            intro r' hr'
            injection hr' with hr'
            subst hr'
            exact haccs rp rfl
          | some n =>
            rw [considerPrim_of_some_some hp n] at haccs
            by_cases hlt : rp.hit.distance < n.hit.distance
            · rw [if_pos hlt] at haccs
              have h1 := haccs rp rfl
              refine ⟨?_, ?_⟩
              · intro r₀ h₀
                injection h₀ with h₀
                subst h₀
                exact h1.trans hlt
              · intro r' hr'
                injection hr' with hr'
                subst hr'
                exact h1
            · rw [if_neg hlt] at haccs
              have h1 := haccs n rfl
              refine ⟨?_, ?_⟩
              · intro r₀ h₀
                injection h₀ with h₀
                subst h₀
                exact h1
              · intro r' hr'
                injection hr' with hr'
                subst hr'
                exact h1.trans_le (not_lt.mp hlt)
      refine Or.inr ⟨p :: l₁, q, l₂, by rw [heq]; rfl, hq, hkey.1, ?_, hl₂⟩
      intro x hx r' hr'
      rcases List.mem_cons.mp hx with rfl | hx2
      · exact hkey.2 r' hr'
      · exact hl₁ x hx2 r' hr'

lemma triangle_hit_eps {tri : Triangle} {ray : Ray} {h : Hit}
    (hI : Triangle.intersect tri ray = some h) : Epsilon ≤ h.distance := by
  unfold Triangle.intersect at hI
  dsimp only at hI
  split_ifs at hI with h1 h2 h3 h4 h5
  all_goals try exact Option.noConfusion hI
  all_goals injection hI with hX
  all_goals subst hX
  all_goals exact not_lt.mp h4

lemma intersectPrim_eps {p : Primitive} {ray : Ray} {r : IntersectionRecord}
    (hI : fp.intersectPrim p ray = some r) : Epsilon ≤ r.hit.distance := by
  cases p with
  | sphere s m =>
    simp only [fp.intersectPrim, Option.map_eq_some'] at hI
    obtain ⟨h', hh', hr⟩ := hI
    subst hr
    exact (sphere_some_facts hh').2.1
  | triangle t m =>
    simp only [fp.intersectPrim, Option.map_eq_some'] at hI
    obtain ⟨h', hh', hr⟩ := hI
    subst hr
    exact triangle_hit_eps hh'

lemma radiance_cutoff {params : RenderParams} {depth : ℕ}
    (h : params.maxDepth ≤ depth) (scene : Scene) (rng : Rng) (ray : Ray) :
    fp.radiance scene rng ray depth params = (0, rng) := by
  unfold fp.radiance
  simp [h]

lemma radiance_miss {params : RenderParams} {depth : ℕ} {scene : Scene}
    {ray : Ray} (h1 : depth < params.maxDepth)
    (h2 : fp.intersect scene ray = none) (rng : Rng) :
    fp.radiance scene rng ray depth params = (scene.environment, rng) := by
  unfold fp.radiance
  simp [Nat.not_le.mpr h1, h2]

lemma radiance_preview_hit {params : RenderParams} {depth : ℕ} {scene : Scene}
    {ray : Ray} {rec : IntersectionRecord} (h1 : depth < params.maxDepth)
    (h2 : fp.intersect scene ray = some rec) (h3 : params.preview = true)
    (rng : Rng) :
    fp.radiance scene rng ray depth params = (rec.material.diffuse, rng) := by
  unfold fp.radiance
  simp [Nat.not_le.mpr h1, h2, h3]

lemma singleRay_cutoff {params : RenderParams} {depth : ℕ}
    (h : params.maxDepth ≤ depth) (scene : Scene) (rng : Rng)
    (rec : IntersectionRecord) (ray : Ray) (basis : OrthoNormalBasis)
    (u v : ℝ) :
    (fp.singleRay scene rng rec ray basis u v depth params).1 = 0 := by
  unfold fp.singleRay
  dsimp only
  split_ifs <;> rw [radiance_cutoff h] <;> simp [Vec3.mul_comps]

lemma sampleLoop_cutoff {params : RenderParams} {depth : ℕ}
    (h : params.maxDepth ≤ depth) (scene : Scene)
    (rec : IntersectionRecord) (ray : Ray) (basis : OrthoNormalBasis)
    (nU nV : ℕ) :
    ∀ (pairs : List (ℕ × ℕ)) (rng : Rng) (acc : Vec3),
    (fp.sampleLoop scene rec ray basis nU nV depth params rng acc pairs).1 = acc := by
  intro pairs
  induction pairs with
  | nil =>
    intro rng acc
    unfold fp.sampleLoop
    rfl
  | cons pr rest ih =>
    intro rng acc
    obtain ⟨v, u⟩ := pr
    unfold fp.sampleLoop
    dsimp only
    rw [ih, singleRay_cutoff h]
    cases acc
    simp [Vec3.add_comps]

lemma intersect_singleton (p : Primitive) (env : Vec3) (ray : Ray) :
    fp.intersect ⟨[p], env⟩ ray = fp.intersectPrim p ray := by
  unfold fp.intersect
  cases hp : fp.intersectPrim p ray with
  | none => simp [considerPrim_of_none hp]
  | some r => simp [considerPrim_of_some_none hp]

lemma mergeLoop_snaps_length :
    ∀ (bufs : List ArrayOutput) (acc : ArrayOutput) (snaps : List ArrayOutput),
    (fp.mergeLoop acc snaps bufs).2.length = snaps.length + bufs.length := by
  intro bufs
  induction bufs with
  | nil => intro acc snaps; simp [fp.mergeLoop]
  | cons b rest ih =>
    intro acc snaps
    unfold fp.mergeLoop
    rw [ih]
    simp
    omega

lemma ceil_div_step (n mc : ℕ) (hmc : 1 ≤ mc) (hn : 1 ≤ n) :
    (n + mc - 1) / mc = (n - mc + mc - 1) / mc + 1 := by
  rcases le_or_lt n mc with hc | hc
  · have e0 : n - mc = 0 := by omega
    have e1 : n + mc - 1 = (n - 1) + mc := by omega
    have e2 : (n - 1) / mc = 0 := Nat.div_eq_of_lt (by omega)
    have e4 : (mc - 1) / mc = 0 := Nat.div_eq_of_lt (by omega)
    rw [e1, Nat.add_div_right _ (by omega), e2, e0]
    simpa using e4
  · have e1 : n + mc - 1 = (n - mc + mc - 1) + mc := by omega
    rw [e1, Nat.add_div_right _ (by omega)]

lemma renderLoop_spec (camera : Camera) (scene : Scene) (params : RenderParams)
    (mkRng : ℕ → Rng) (schedule : ℕ → ℕ → ℕ) (hmc : 1 ≤ params.maxCpus) :
    ∀ (fuel sample seed : ℕ) (acc : ArrayOutput) (snaps : List ArrayOutput)
      (sizes : List ℕ), params.samplesPerPixel - sample < fuel →
    ∃ res tail,
      fp.renderLoop camera scene params mkRng schedule fuel sample seed acc
          snaps sizes = some res ∧
      res.snapshots.length = snaps.length + (params.samplesPerPixel - sample) ∧
      res.batchSizes = sizes ++ tail ∧
      tail.length =
        ((params.samplesPerPixel - sample) + params.maxCpus - 1) / params.maxCpus ∧
      tail.sum = params.samplesPerPixel - sample ∧
      (∀ k ∈ tail, k ≤ params.maxCpus) := by
  intro fuel
  induction fuel with
  | zero => intro sample seed acc snaps sizes hf; omega
  | succ fuel ih =>
    intro sample seed acc snaps sizes hf
    by_cases hdone : params.samplesPerPixel ≤ sample
    · have e : params.samplesPerPixel - sample = 0 := by omega
      refine ⟨⟨acc, snaps, sizes⟩, [], ?_, by simp [e], by simp, ?_, by simp [e], by simp⟩
      · unfold fp.renderLoop
        rw [if_pos hdone]
      · rw [e]
        simp only [List.length_nil, Nat.zero_add]
        exact (Nat.div_eq_of_lt (by omega)).symm
    · push_neg at hdone
      obtain ⟨res, tail, hres, hsnap, hsizes, htlen, htsum, htle⟩ :=
        ih (sample + params.maxCpus)
          (seed + (min params.samplesPerPixel (sample + params.maxCpus) - sample))
          (fp.mergeLoop acc snaps
            ((List.range (min params.samplesPerPixel (sample + params.maxCpus)
                - sample)).map fun i =>
              fp.renderWholeScreen camera scene
                (fp.grabSeed seed (schedule sizes.length) i) params mkRng)).1
          (fp.mergeLoop acc snaps
            ((List.range (min params.samplesPerPixel (sample + params.maxCpus)
                - sample)).map fun i =>
              fp.renderWholeScreen camera scene
                (fp.grabSeed seed (schedule sizes.length) i) params mkRng)).2
          (sizes ++ [min params.samplesPerPixel (sample + params.maxCpus) - sample])
          (by omega)
      refine ⟨res,
        (min params.samplesPerPixel (sample + params.maxCpus) - sample) :: tail,
        ?_, ?_, ?_, ?_, ?_, ?_⟩
      · unfold fp.renderLoop
        rw [if_neg (Nat.not_le.mpr hdone)]
        exact hres
      · rw [hsnap, mergeLoop_snaps_length]
        simp only [List.length_map, List.length_range]
        omega
      · rw [hsizes]
        simp
      · have hstep := ceil_div_step (params.samplesPerPixel - sample)
          params.maxCpus hmc (by omega)
        have e : params.samplesPerPixel - sample - params.maxCpus
            = params.samplesPerPixel - (sample + params.maxCpus) := by omega
        rw [e] at hstep
        rw [List.length_cons, htlen, hstep]
      · rw [List.sum_cons, htsum]
        omega
      · intro x hx
        rcases List.mem_cons.mp hx with rfl | hx2
        · omega
        · exact htle x hx2

/-- C9: for every sphere and ray, the fp variant `fp::Sphere::intersect` and
the oo variant `oo::Sphere::intersect` are behaviorally equivalent: the oo
variant returns `true` exactly when the fp variant returns a `Hit`, leaves
the out-parameter untouched on a miss, and on a hit writes exactly the hit
(distance, position and normal) the fp variant returns. -/
theorem oo_fp_sphere_intersect_equiv (s : Sphere) (ray : Ray) (h₀ : Hit) :
    oo.Sphere.intersect s ray h₀ =
      match fp.Sphere.intersect s ray with
      | some h => (true, h)
      | none => (false, h₀) := by
  unfold oo.Sphere.intersect fp.Sphere.intersect
  dsimp only
  split_ifs <;> rfl

/-- Witness for C9 at a concrete sphere, ray and dummy out-parameter: the oo
variant returns `(true, cHit)` exactly as the fp variant returns
`some cHit`. -/
theorem oo_fp_sphere_intersect_equiv_witness :
    oo.Sphere.intersect cSphere cRay cHitTangent = (true, cHit) := by
  have h := oo_fp_sphere_intersect_equiv cSphere cRay cHitTangent
  rw [cSphere_intersect_eval] at h
  exact h

/-- C4 (code bug): the async workers of `fp::render` capture the shared
`seed` counter by reference and execute `seed++` concurrently, so the seed a
given future obtains is `base + (grab position)` for a scheduler-dependent
grab order (`fp.grabSeed` in the model of `render`).  Both `cSchedA` and
`cSchedB` order a 2-worker batch validly (they are the two permutations of
{0,1}), yet sample 0 is rendered with seed 0 under one and seed 1 under the
other: the per-sample seed assignment is not deterministic, contradicting
the claim (and the spec's determinism requirement). -/
theorem render_seed_assignment_race :
    cSchedA 0 0 = 0 ∧ cSchedA 0 1 = 1 ∧ cSchedB 0 0 = 1 ∧ cSchedB 0 1 = 0 ∧
    fp.grabSeed 0 (cSchedA 0) 0 = 0 ∧ fp.grabSeed 0 (cSchedB 0) 0 = 1 ∧
    fp.grabSeed 0 (cSchedA 0) 0 ≠ fp.grabSeed 0 (cSchedB 0) 0 := by
  refine ⟨rfl, rfl, rfl, rfl, rfl, rfl, by decide⟩

/-- C6: for every configuration with at least one worker, the parallel
sample scheduler terminates (`fp.render` returns a result), dispatches the
frame renders in exactly `ceil(samplesPerPixel / maxCpus)` batches of at
most `maxCpus` renders each and `samplesPerPixel` renders in total, and
invokes the checkpoint callback exactly `samplesPerPixel` times (one
accumulator snapshot per completed sample). -/
theorem render_batches_and_callbacks (camera : Camera) (scene : Scene)
    (params : RenderParams) (mkRng : ℕ → Rng) (schedule : ℕ → ℕ → ℕ)
    (hmc : 1 ≤ params.maxCpus) :
    ∃ res, fp.render camera scene params mkRng schedule = some res ∧
      res.snapshots.length = params.samplesPerPixel ∧
      res.batchSizes.length =
        (params.samplesPerPixel + params.maxCpus - 1) / params.maxCpus ∧
      res.batchSizes.sum = params.samplesPerPixel ∧
      (∀ k ∈ res.batchSizes, k ≤ params.maxCpus) := by
  obtain ⟨res, tail, hres, hsnap, hsizes, htlen, htsum, htle⟩ :=
    renderLoop_spec camera scene params mkRng schedule hmc
      (params.samplesPerPixel + 1) 0 params.seed
      (ArrayOutput.zeroed params.width params.height) [] [] (by omega)
  refine ⟨res, hres, ?_, ?_, ?_, ?_⟩
  · simpa using hsnap
  · rw [hsizes]
    simpa using htlen
  · rw [hsizes]
    simpa using htsum
  · rw [hsizes]
    simpa using htle

/-- Witness for C6: with 3 samples and 2 workers the scheduler returns a
result with 3 checkpoint invocations, 2 batches summing to 3 samples, each
batch at most 2 renders. -/
theorem render_batches_and_callbacks_witness :
    ∃ res, fp.render cCamera cScene1 cParamsSched cMkRng cSchedA = some res ∧
      res.snapshots.length = cParamsSched.samplesPerPixel ∧
      res.batchSizes.length =
        (cParamsSched.samplesPerPixel + cParamsSched.maxCpus - 1)
          / cParamsSched.maxCpus ∧
      res.batchSizes.sum = cParamsSched.samplesPerPixel ∧
      (∀ k ∈ res.batchSizes, k ≤ cParamsSched.maxCpus) :=
  render_batches_and_callbacks cCamera cScene1 cParamsSched cMkRng cSchedA
    (by norm_num [cParamsSched])

/-- C1: for every scene and ray the scene intersector returns no record
exactly when no primitive reports a hit, and otherwise returns the record of
a primitive that reported it (hit paired with that primitive's material)
whose distance is positive and minimal among all reported hits. -/
theorem intersect_returns_nearest (scene : Scene) (ray : Ray) :
    (fp.intersect scene ray = none ↔
      ∀ p ∈ scene.primitives, fp.intersectPrim p ray = none) ∧
    (∀ r, fp.intersect scene ray = some r →
      0 < r.hit.distance ∧
      (∃ p ∈ scene.primitives, fp.intersectPrim p ray = some r) ∧
      (∀ p ∈ scene.primitives, ∀ r', fp.intersectPrim p ray = some r' →
        r.hit.distance ≤ r'.hit.distance)) := by
  constructor
  · unfold fp.intersect
    rw [foldl_consider_none]
    simp
  · intro r hr
    unfold fp.intersect at hr
    rcases foldl_consider_some ray scene.primitives none r hr with
      ⟨h1, _⟩ | ⟨l₁, p, l₂, heq, hp, _, hl₁, hl₂⟩
    · exact Option.noConfusion h1
    · refine ⟨lt_of_lt_of_le epsilon_pos (intersectPrim_eps hp), ⟨p, ?_, hp⟩, ?_⟩
      · rw [heq]
        exact List.mem_append_right _ (List.mem_cons_self _ _)
      · intro q hq r' hr'
        rw [heq] at hq
        rcases List.mem_append.mp hq with hq1 | hq2
        · exact le_of_lt (hl₁ q hq1 r' hr')
        · rcases List.mem_cons.mp hq2 with rfl | hq3
          · rw [hp] at hr'
            injection hr' with e
            exact le_of_eq (by rw [e])
          · exact hl₂ q hq3 r' hr'

/-- Witness for C1 at a concrete scene with no primitives: the intersector
returns no record, through the none-direction of the theorem. -/
theorem intersect_returns_nearest_witness : fp.intersect cSceneEmpty cRay = none :=
  (intersect_returns_nearest cSceneEmpty cRay).1.mpr (by simp [cSceneEmpty])

/-- C10: the tracked nearest candidate is replaced only on strictly smaller
distance.  First part: in a two-primitive scene whose primitives hit at
exactly equal distance, the intersector returns the first primitive's
record.  Second part: in any scene, every primitive listed before the one
whose record is returned reports either no hit or a strictly larger
distance (so a tie is always resolved toward the earlier primitive). -/
theorem intersect_tie_prefers_earlier (ray : Ray) :
    (∀ (env : Vec3) (p₁ p₂ : Primitive) (r₁ r₂ : IntersectionRecord),
      fp.intersectPrim p₁ ray = some r₁ → fp.intersectPrim p₂ ray = some r₂ →
      r₂.hit.distance = r₁.hit.distance →
      fp.intersect ⟨[p₁, p₂], env⟩ ray = some r₁) ∧
    (∀ (scene : Scene) (r : IntersectionRecord),
      fp.intersect scene ray = some r →
      ∃ l₁ p l₂, scene.primitives = l₁ ++ p :: l₂ ∧
        fp.intersectPrim p ray = some r ∧
        ∀ q ∈ l₁, ∀ r', fp.intersectPrim q ray = some r' →
          r.hit.distance < r'.hit.distance) := by
  constructor
  · intro env p₁ p₂ r₁ r₂ h1 h2 heq
    unfold fp.intersect
    simp only [List.foldl]
    rw [considerPrim_of_some_none h1, considerPrim_of_some_some h2 r₁,
      if_neg (by rw [heq]; exact lt_irrefl _)]
  · intro scene r hr
    unfold fp.intersect at hr
    rcases foldl_consider_some ray scene.primitives none r hr with
      ⟨h1, _⟩ | ⟨l₁, p, l₂, heq, hp, _, hl₁, _⟩
    · exact Option.noConfusion h1
    · exact ⟨l₁, p, l₂, heq, hp, hl₁⟩

/-- Witness for C10: two coincident spheres hit at the same distance 4; the
intersector returns the record of the first (material `cMat`, not
`cMatB`). -/
theorem intersect_tie_prefers_earlier_witness :
    fp.intersect cScene2 cRay = some cRec :=
  (intersect_tie_prefers_earlier cRay).1 ⟨0, 0, 0⟩
    (Primitive.sphere cSphere cMat) (Primitive.sphere cSphere cMatB)
    ⟨cHit, cMat⟩ ⟨cHit, cMatB⟩
    (cPrim_intersect_eval cMat) (cPrim_intersect_eval cMatB) rfl

/-- C2 (amended): for every ray that misses every primitive in the scene,
at every recursion depth strictly below the depth limit and for any render
parameters and generator state, the radiance estimate equals the scene's
environment colour exactly.  (At depth at least `maxDepth` the estimator
returns black before intersecting — see the counterexample.) -/
theorem radiance_miss_is_environment (scene : Scene) (rng : Rng) (ray : Ray)
    (depth : ℕ) (params : RenderParams) (h1 : depth < params.maxDepth)
    (h2 : fp.intersect scene ray = none) :
    (fp.radiance scene rng ray depth params).1 = scene.environment := by
  rw [radiance_miss h1 h2]

/-- Counterexample to C2 as stated: at depth 0 with `maxDepth = 0`, a ray
that misses every primitive yields black, not the environment colour
(1,1,1): the depth cutoff fires before the scene is intersected. -/
theorem radiance_miss_counterexample :
    fp.intersect cSceneEmpty cRay = none ∧
    (fp.radiance cSceneEmpty cRng cRay 0 cParamsPre0).1
      ≠ cSceneEmpty.environment := by
  constructor
  · simp [fp.intersect, cSceneEmpty]
  · rw [radiance_cutoff (by norm_num [cParamsPre0])]
    simp [cSceneEmpty]

/-- Witness for (amended) C2: the empty scene with environment (1,1,1) at
depth 0 with `maxDepth = 1` produces exactly the environment colour. -/
theorem radiance_miss_is_environment_witness :
    (fp.radiance cSceneEmpty cRng cRay 0 cParams).1 = cSceneEmpty.environment :=
  radiance_miss_is_environment cSceneEmpty cRng cRay 0 cParams
    (by norm_num [cParams]) (by simp [fp.intersect, cSceneEmpty])

/-- C5 (amended): in preview mode, at every recursion depth strictly below
the depth limit, the radiance estimate for a ray that hits a primitive is
exactly the hit material's diffuse colour — independent of lighting and of
the material's emission.  (At depth at least `maxDepth` the depth cutoff
returns black instead — see the counterexample.) -/
theorem radiance_preview_is_diffuse (scene : Scene) (rng : Rng) (ray : Ray)
    (depth : ℕ) (params : RenderParams) (rec : IntersectionRecord)
    (h1 : depth < params.maxDepth) (h2 : fp.intersect scene ray = some rec)
    (h3 : params.preview = true) :
    (fp.radiance scene rng ray depth params).1 = rec.material.diffuse := by
  rw [radiance_preview_hit h1 h2 h3]

/-- Counterexample to C5 as stated: in preview mode with `maxDepth = 0`, a
primary ray that hits the concrete sphere yields black, not the material's
diffuse colour (1,0,0). -/
theorem radiance_preview_counterexample :
    fp.intersect cScene1 cRay = some cRec ∧ cParamsPre0.preview = true ∧
    (fp.radiance cScene1 cRng cRay 0 cParamsPre0).1
      ≠ cRec.material.diffuse := by
  refine ⟨cScene1_intersect_eval, rfl, ?_⟩
  rw [radiance_cutoff (by norm_num [cParamsPre0])]
  simp [cRec, cMat]

/-- Witness for (amended) C5: the concrete one-sphere scene in preview mode
at depth 0 with `maxDepth = 1` yields exactly the diffuse colour. -/
theorem radiance_preview_is_diffuse_witness :
    (fp.radiance cScene1 cRng cRay 0 cParamsPreview).1
      = cRec.material.diffuse :=
  radiance_preview_is_diffuse cScene1 cRng cRay 0 cParamsPreview cRec
    (by norm_num [cParamsPreview]) cScene1_intersect_eval rfl

lemma Vec3.add_mk_zero (v : Vec3) : v + (⟨0, 0, 0⟩ : Vec3) = v := by
  cases v; simp

/-- C3: in a scene holding a single sphere with a material of zero
reflectivity, a primary ray that hits the sphere, evaluated at depth 0 in
path-tracing (non-preview) mode with `maxDepth = 1`, yields exactly the
material's emission colour — for every (positive) stratification grid size
and every generator state: the depth cutoff zeroes every first-bounce
sub-sample, so only the emission term survives. -/
theorem radiance_single_emissive_sphere (s : Sphere) (mat : Material)
    (env : Vec3) (rng : Rng) (ray : Ray) (params : RenderParams)
    (rec : IntersectionRecord)
    (hrefl : mat.reflectivity = 0)
    (hdepth : params.maxDepth = 1)
    (hprev : params.preview = false)
    (hU : 0 < params.firstBounceUSamples)
    (hV : 0 < params.firstBounceVSamples)
    (hhit : fp.intersect ⟨[Primitive.sphere s mat], env⟩ ray = some rec) :
    (fp.radiance ⟨[Primitive.sphere s mat], env⟩ rng ray 0 params).1
      = mat.emission := by
  have hm : rec.material = mat := by
    rw [intersect_singleton] at hhit
    simp only [fp.intersectPrim, Option.map_eq_some'] at hhit
    obtain ⟨h', _, hr⟩ := hhit
    rw [← hr]
  have h1 : ¬ params.maxDepth ≤ 0 := by omega
  unfold fp.radiance
  simp only [h1, dite_false, dif_neg, hhit, hprev, Bool.false_eq_true,
    if_false, ite_false]
  rw [sampleLoop_cutoff (by omega)]
  simp [hm, Vec3.add_mk_zero]

/-- Witness for C3: the concrete emissive sphere scene at depth 0 with
`maxDepth = 1`, 1x1 stratification and the all-zero generator yields
exactly the emission colour (2,3,4). -/
theorem radiance_single_emissive_sphere_witness :
    (fp.radiance cScene1 cRng cRay 0 cParams).1 = cMat.emission :=
  radiance_single_emissive_sphere cSphere cMat ⟨0, 0, 0⟩ cRng cRay cParams
    cRec rfl rfl rfl (by norm_num [cParams]) (by norm_num [cParams])
    cScene1_intersect_eval

/-- C8 (amended): for a sphere of positive radius and a ray with unit
direction, every `Hit` returned by `fp::Sphere::intersect` has parametric
distance at least the epsilon threshold (equality is possible in the
degenerate tangent case where both quadratic roots equal `Epsilon` — see
the counterexample to the strict bound), a unit-length normal, and a normal
oriented against the incoming ray (non-positive dot product with the ray
direction). -/
theorem sphere_hit_invariants (s : Sphere) (ray : Ray) (h : Hit)
    (hr : 0 < s.radius) (hd : ray.direction.lengthSquared = 1)
    (hI : fp.Sphere.intersect s ray = some h) :
    Epsilon ≤ h.distance ∧ h.normal.length = 1 ∧
    h.normal.dot ray.direction ≤ 0 := by
  obtain ⟨hdet, heps, hroot, hpos, hnorm, hdot⟩ := sphere_some_facts hI
  refine ⟨heps, ?_, hdot⟩
  have hw : (h.position - s.centre).lengthSquared = s.radius * s.radius := by
    rw [hpos]
    exact sphere_root_lengthSquared hd hdet hroot
  have hu : (h.position - s.centre).normalised.lengthSquared = 1 :=
    normalised_length_sq_one hr hw
  rcases hnorm with he | he <;> rw [he]
  · exact length_one_of_lengthSquared_one hu
  · rw [Vec3.length, Vec3.neg_lengthSquared, hu, Real.sqrt_one]

/-- Counterexample to C8 as stated: in the tangent configuration both
quadratic roots equal `Epsilon`, the guard passes, and the returned hit has
distance exactly `Epsilon` — not strictly greater than the threshold. -/
theorem sphere_hit_invariants_counterexample :
    fp.Sphere.intersect cSphereTangent cRayZ = some cHitTangent ∧
    ¬ Epsilon < cHitTangent.distance := by
  refine ⟨cSphereTangent_intersect_eval, ?_⟩
  simp [cHitTangent]

/-- Witness for (amended) C8 at the concrete sphere and ray: the returned
hit has distance 4 at least `Epsilon`, unit normal (0,0,1), and
normal-dot-direction -1 which is non-positive. -/
theorem sphere_hit_invariants_witness :
    Epsilon ≤ cHit.distance ∧ cHit.normal.length = 1 ∧
    cHit.normal.dot cRay.direction ≤ 0 :=
  sphere_hit_invariants cSphere cRay cHit (by norm_num [cSphere])
    (by norm_num [cRay]) cSphere_intersect_eval

/-- C7 (amended): for a ray of unit direction whose origin lies strictly
inside a sphere of positive radius, whenever the far-side exit distance
(the larger quadratic root) is at least the `Epsilon` threshold,
`fp::Sphere::intersect` returns the hit at the far-side exit point with the
normal flipped to point back toward the origin side and the interior-hit
flag set.  (When the exit distance falls below the threshold the routine
returns no hit at all — see the counterexample to the unconditional
claim.) -/
theorem sphere_inside_hits_far_exit (s : Sphere) (ray : Ray)
    (hd : ray.direction.lengthSquared = 1) (hr : 0 < s.radius)
    (hin : (s.centre - ray.origin).lengthSquared < s.radius * s.radius)
    (hfar : Epsilon ≤ spherePlusT s ray) :
    fp.Sphere.intersect s ray =
      some ⟨spherePlusT s ray, ray.positionAlong (spherePlusT s ray),
        -((ray.positionAlong (spherePlusT s ray) - s.centre).normalised),
        true⟩ := by
  have hdet_gt : sphereHalfB s ray * sphereHalfB s ray < sphereDet s ray := by
    unfold sphereDet
    linarith
  have hdet_nonneg : 0 ≤ sphereDet s ray :=
    le_trans (mul_self_nonneg _) hdet_gt.le
  have habs : |sphereHalfB s ray| < Real.sqrt (sphereDet s ray) := by
    have h1 : Real.sqrt (sphereHalfB s ray * sphereHalfB s ray)
        < Real.sqrt (sphereDet s ray) :=
      Real.sqrt_lt_sqrt (mul_self_nonneg _) hdet_gt
    rwa [Real.sqrt_mul_self_eq_abs] at h1
  have hminus : sphereMinusT s ray < Epsilon := by
    unfold sphereMinusT
    have hble : sphereHalfB s ray ≤ |sphereHalfB s ray| := le_abs_self _
    have hep := epsilon_pos
    linarith
  have hrtpos : 0 < Real.sqrt (sphereDet s ray) :=
    lt_of_le_of_lt (abs_nonneg _) habs
  have hwd : (ray.positionAlong (spherePlusT s ray) - s.centre).dot
      ray.direction = Real.sqrt (sphereDet s ray) := by
    rw [positionAlong_sub_dot, hd]
    unfold spherePlusT
    ring
  have hwlen : (ray.positionAlong (spherePlusT s ray)
      - s.centre).lengthSquared = s.radius * s.radius :=
    sphere_root_lengthSquared hd hdet_nonneg (Or.inr rfl)
  have hlen : (ray.positionAlong (spherePlusT s ray) - s.centre).length
      = s.radius := by
    rw [Vec3.length, hwlen, Real.sqrt_mul_self hr.le]
  have hposdot : (ray.positionAlong (spherePlusT s ray)
      - s.centre).normalised.dot ray.direction > 0 := by
    rw [Vec3.normalised, Vec3.div_dot, hwd, hlen]
    exact div_pos hrtpos hr
  rw [fp.Sphere.intersect_eq]
  rw [if_neg (not_lt.mpr hdet_nonneg)]
  rw [if_neg (fun hc => absurd hc.2 (not_lt.mpr hfar))]
  dsimp only
  rw [if_neg (not_lt.mpr hminus.le)]
  rw [if_pos hposdot]

/-- Counterexample to C7 as stated: the origin of `cRayZ` lies strictly
inside `cSphereInside` (distance from centre below the radius), yet the
far-side exit distance `Epsilon/2` lies below the threshold, so the routine
returns no hit at all instead of the exit-point hit. -/
theorem sphere_inside_counterexample :
    cRayZ.direction.lengthSquared = 1 ∧
    (cSphereInside.centre - cRayZ.origin).lengthSquared
      < cSphereInside.radius * cSphereInside.radius ∧
    fp.Sphere.intersect cSphereInside cRayZ = none := by
  refine ⟨by norm_num [cRayZ], ?_, cSphereInside_intersect_eval⟩
  norm_num [cSphereInside, cRayZ, Epsilon]

/-- Witness for (amended) C7: a ray from the centre of the unit sphere
exits at distance 1 with the normal flipped to (0,0,-1) and the
interior-hit flag set. -/
theorem sphere_inside_hits_far_exit_witness :
    fp.Sphere.intersect cSphereOrigin cRayZ = some cHitInsideExit := by
  have h := sphere_inside_hits_far_exit cSphereOrigin cRayZ
    (by norm_num [cRayZ]) (by norm_num [cSphereOrigin])
    (by norm_num [cSphereOrigin, cRayZ])
    (by norm_num [spherePlusT, sphereHalfB, sphereDet, cSphereOrigin, cRayZ,
      Epsilon, Real.sqrt_one])
  rw [h]
  norm_num [spherePlusT, sphereHalfB, sphereDet, cSphereOrigin, cRayZ,
    cHitInsideExit, Ray.positionAlong, Vec3.normalised, Vec3.length,
    Real.sqrt_one]
